import Mathlib

/-!
Shallow embedding of the Speed-Test repository (src/Server.py, src/ClientFinal.py):
the binary wire codec (struct.pack/unpack with '!' big-endian formats), the
server's UDP request validation and segment generation, the client's TCP and
UDP receive loops, the discovery listener, and the final-report arithmetic.
Bytes are modelled as natural numbers below 256, byte strings as lists.
-/

/-- MAGIC_COOKIE constant (Server.py line 9, ClientFinal.py line 27). -/
def MAGIC_COOKIE : Nat := 0xabcddcba

/-- OFFER_MESSAGE_TYPE constant 0x2 (Server.py line 10). -/
def OFFER_MESSAGE_TYPE : Nat := 0x2

/-- REQUEST_MESSAGE_TYPE constant 0x3 (Server.py line 11). -/
def REQUEST_MESSAGE_TYPE : Nat := 0x3

/-- PAYLOAD_MESSAGE_TYPE constant 0x4 (Server.py line 12). -/
def PAYLOAD_MESSAGE_TYPE : Nat := 0x4

/-- BUFFER_SIZE / PACKET_SIZE constant 1024 (Server.py line 14, ClientFinal.py line 31). -/
def BUFFER_SIZE : Nat := 1024

/-- Big-endian packing of `n` into `w` bytes, as `struct.pack` does for the
fixed-width fields of the '!I', '!B', '!H', '!Q' formats (most significant
byte first). -/
def packBE : Nat → Nat → List Nat
  | 0, _ => []
  | w + 1, n => (n / 256 ^ w % 256) :: packBE w n

/-- Big-endian value of a byte string, as `struct.unpack` reads a fixed-width
big-endian field. -/
def beVal (bs : List Nat) : Nat := bs.foldl (fun acc b => acc * 256 + b) 0

theorem packBE_length (w n : Nat) : (packBE w n).length = w := by
  induction w with
  | zero => rfl
  | succ w ih => simp [packBE, ih]

theorem beVal_foldl (bs : List Nat) (acc : Nat) :
    bs.foldl (fun a b => a * 256 + b) acc =
      acc * 256 ^ bs.length + bs.foldl (fun a b => a * 256 + b) 0 := by
  induction bs generalizing acc with
  | nil => simp
  | cons b tl ih =>
    simp only [List.foldl_cons, List.length_cons]
    rw [ih (acc * 256 + b), ih (0 * 256 + b)]
    ring

theorem mod_pow_succ_aux (n B : Nat) (hB : 0 < B) :
    n % (B * 256) = n / B % 256 * B + n % B := by
  have hq : n = B * (n / B) + n % B := (Nat.div_add_mod n B).symm
  have hr : n % B < B := Nat.mod_lt _ hB
  conv_lhs => rw [hq]
  rw [Nat.add_mod, Nat.mul_mod_mul_left]
  have hBle : B ≤ B * 256 := by nlinarith
  have h1 : n % B % (B * 256) = n % B := Nat.mod_eq_of_lt (lt_of_lt_of_le hr hBle)
  rw [h1]
  have h2 : n / B % 256 < 256 := Nat.mod_lt _ (by norm_num)
  have h3 : B * (n / B % 256) + n % B < B * 256 := by nlinarith
  rw [Nat.mod_eq_of_lt h3, Nat.mul_comm]

theorem beVal_packBE (w n : Nat) : beVal (packBE w n) = n % 256 ^ w := by
  induction w with
  | zero => simp [packBE, beVal, Nat.mod_one]
  | succ w ih =>
    simp only [packBE, beVal, List.foldl_cons, Nat.zero_mul, Nat.zero_add]
    rw [beVal_foldl, packBE_length]
    simp only [beVal] at ih
    rw [ih, Nat.pow_succ, mod_pow_succ_aux n (256 ^ w) (Nat.pos_pow_of_pos w (by norm_num))]

/-! ## Wire codec (struct.pack / struct.unpack formats of Server.py and ClientFinal.py) -/

/-- Offer message encoding: struct.pack of the format string with I B H H
applied to (MAGIC_COOKIE, OFFER_MESSAGE_TYPE, udp_port, tcp_port), big-endian
(Server.py line 82). -/
def encodeOffer (udp_port tcp_port : Nat) : List Nat :=
  packBE 4 MAGIC_COOKIE ++ (packBE 1 OFFER_MESSAGE_TYPE ++ (packBE 2 udp_port ++ packBE 2 tcp_port))

/-- Offer decoding on the client (ClientFinal.py lines 113-118): struct.unpack
of the IBHH format requires exactly 9 bytes (struct.error otherwise, caught and
the datagram ignored); on a matching cookie and type the udp and tcp ports are
returned. -/
def decodeOffer (data : List Nat) : Option (Nat × Nat) :=
  if data.length = 9 then
    if beVal (data.take 4) = MAGIC_COOKIE ∧ beVal ((data.drop 4).take 1) = OFFER_MESSAGE_TYPE then
      some (beVal ((data.drop 5).take 2), beVal (data.drop 7))
    else none
  else none

/-- Request message encoding: struct.pack of the IBQ format applied to
(MAGIC_COOKIE, MESSAGE_TYPE_REQUEST, file_size) (ClientFinal.py line 176). -/
def encodeRequest (file_size : Nat) : List Nat :=
  packBE 4 MAGIC_COOKIE ++ (packBE 1 REQUEST_MESSAGE_TYPE ++ packBE 8 file_size)

/-- Server.validate_request (Server.py lines 112-119): length at least 13,
then the cookie and type from the first five bytes must match. -/
def validate_request (data : List Nat) : Bool :=
  if data.length < 13 then false
  else (beVal (data.take 4) == MAGIC_COOKIE) && (beVal ((data.drop 4).take 1) == REQUEST_MESSAGE_TYPE)

/-- Per-datagram processing of Server.listen_for_udp_requests (Server.py lines
103-110): validate_request, then struct.unpack of the Q format on data[5:],
which succeeds only when exactly 8 bytes remain (a struct.error is caught by
the surrounding except and the request is dropped). Returns the file size a
handler is spawned for, or none when the datagram is dropped. -/
def processRequest (data : List Nat) : Option Nat :=
  if validate_request data then
    if (data.drop 5).length = 8 then some (beVal (data.drop 5)) else none
  else none

/-- Payload message encoding: struct.pack of the IBQQ format applied to
(MAGIC_COOKIE, PAYLOAD_MESSAGE_TYPE, total_segments, seq) followed by the raw
data bytes (Server.py lines 163-164). -/
def encodePayload (total_segments seq : Nat) (data : List Nat) : List Nat :=
  packBE 4 MAGIC_COOKIE ++ (packBE 1 PAYLOAD_MESSAGE_TYPE ++ (packBE 8 total_segments ++ (packBE 8 seq ++ data)))

/-- Payload decoding on the client (ClientFinal.py lines 199-210): drop the
datagram when shorter than the 21-byte header, unpack the IBQQ header from
data[:21], drop on a cookie or type mismatch, and otherwise use total_segments,
current_segment and the data portion data[21:]. -/
def decodePayload (data : List Nat) : Option (Nat × Nat × List Nat) :=
  if data.length < 21 then none
  else if beVal (data.take 4) = MAGIC_COOKIE ∧ beVal ((data.drop 4).take 1) = PAYLOAD_MESSAGE_TYPE then
    some (beVal ((data.drop 5).take 8), beVal ((data.drop 13).take 8), data.drop 21)
  else none

theorem take_packBE_append (w n : Nat) (rest : List Nat) :
    (packBE w n ++ rest).take w = packBE w n := List.take_left' (packBE_length w n)

theorem drop_packBE_append (w n : Nat) (rest : List Nat) :
    (packBE w n ++ rest).drop w = rest := List.drop_left' (packBE_length w n)

theorem decodeOffer_encodeOffer (u t : Nat) (hu : u < 2 ^ 16) (ht : t < 2 ^ 16) :
    decodeOffer (encodeOffer u t) = some (u, t) := by
  have hd4 : (encodeOffer u t).drop 4 = packBE 1 OFFER_MESSAGE_TYPE ++ (packBE 2 u ++ packBE 2 t) :=
    drop_packBE_append ..
  have hd5 : (encodeOffer u t).drop 5 = packBE 2 u ++ packBE 2 t := by
    rw [← List.drop_drop 1 4, hd4, drop_packBE_append]
  have hd7 : (encodeOffer u t).drop 7 = packBE 2 t := by
    rw [← List.drop_drop 2 5, hd5, drop_packBE_append]
  have hlen : (encodeOffer u t).length = 9 := by
    simp [encodeOffer, packBE_length]
  rw [decodeOffer, if_pos hlen]
  rw [show (encodeOffer u t).take 4 = packBE 4 MAGIC_COOKIE from take_packBE_append ..,
      hd4, take_packBE_append, hd5, take_packBE_append, hd7]
  rw [if_pos (by constructor <;> · rw [beVal_packBE]; norm_num [MAGIC_COOKIE, OFFER_MESSAGE_TYPE])]
  rw [beVal_packBE, beVal_packBE]
  norm_num
  omega

theorem processRequest_encodeRequest (fs : Nat) (hfs : fs < 2 ^ 64) :
    processRequest (encodeRequest fs) = some fs := by
  have hd4 : (encodeRequest fs).drop 4 = packBE 1 REQUEST_MESSAGE_TYPE ++ packBE 8 fs :=
    drop_packBE_append ..
  have hd5 : (encodeRequest fs).drop 5 = packBE 8 fs := by
    rw [← List.drop_drop 1 4, hd4, drop_packBE_append]
  have hlen : (encodeRequest fs).length = 13 := by
    simp [encodeRequest, packBE_length]
  have hval : validate_request (encodeRequest fs) = true := by
    rw [validate_request, if_neg (by omega)]
    rw [show (encodeRequest fs).take 4 = packBE 4 MAGIC_COOKIE from take_packBE_append ..,
        hd4, take_packBE_append, beVal_packBE, beVal_packBE]
    decide
  rw [processRequest, if_pos hval, hd5, if_pos (packBE_length 8 fs), beVal_packBE]
  rw [Nat.mod_eq_of_lt (show fs < 256 ^ 8 by norm_num at hfs ⊢; omega)]

theorem decodePayload_encodePayload (total seq : Nat) (data : List Nat)
    (htot : total < 2 ^ 64) (hseq : seq < 2 ^ 64) :
    decodePayload (encodePayload total seq data) = some (total, seq, data) := by
  have hd4 : (encodePayload total seq data).drop 4 =
      packBE 1 PAYLOAD_MESSAGE_TYPE ++ (packBE 8 total ++ (packBE 8 seq ++ data)) :=
    drop_packBE_append ..
  have hd5 : (encodePayload total seq data).drop 5 = packBE 8 total ++ (packBE 8 seq ++ data) := by
    rw [← List.drop_drop 1 4, hd4, drop_packBE_append]
  have hd13 : (encodePayload total seq data).drop 13 = packBE 8 seq ++ data := by
    rw [← List.drop_drop 8 5, hd5, drop_packBE_append]
  have hd21 : (encodePayload total seq data).drop 21 = data := by
    rw [← List.drop_drop 8 13, hd13, drop_packBE_append]
  have hlen : (encodePayload total seq data).length = 21 + data.length := by
    simp [encodePayload, packBE_length]; omega
  rw [decodePayload, if_neg (by omega)]
  rw [show (encodePayload total seq data).take 4 = packBE 4 MAGIC_COOKIE from take_packBE_append ..,
      hd4, take_packBE_append]
  rw [if_pos (by rw [beVal_packBE, beVal_packBE]; norm_num [MAGIC_COOKIE, PAYLOAD_MESSAGE_TYPE])]
  rw [hd5, take_packBE_append, hd13, take_packBE_append, hd21, beVal_packBE, beVal_packBE]
  norm_num
  omega

/-- C1: For every Offer message with udpPort and tcpPort in uint16 range, every
Request with fileSize in uint64 range, and every Payload with totalSegments and
segmentIndex in uint64 range and data within the packet cap, decoding the
encoded message yields back exactly the original field values (magic cookie
0xABCDDCBA, type byte, ports / fileSize / totalSegments, segmentIndex, data),
with all multi-byte integers big-endian. -/
theorem C1_codec_roundtrip (u t fs total seq : Nat) (data : List Nat)
    (hu : u < 2 ^ 16) (ht : t < 2 ^ 16) (hfs : fs < 2 ^ 64)
    (htot : total < 2 ^ 64) (hseq : seq < 2 ^ 64) (hdata : data.length ≤ BUFFER_SIZE) :
    decodeOffer (encodeOffer u t) = some (u, t) ∧
    processRequest (encodeRequest fs) = some fs ∧
    decodePayload (encodePayload total seq data) = some (total, seq, data) :=
  ⟨decodeOffer_encodeOffer u t hu ht, processRequest_encodeRequest fs hfs,
   decodePayload_encodePayload total seq data htot hseq⟩

set_option maxRecDepth 4096 in
/-- Witness for C1 at concrete field values. -/
theorem C1_codec_roundtrip_witness :
    (54321 < 2 ^ 16 ∧ 12345 < 2 ^ 16 ∧ 2500 < 2 ^ 64 ∧ 3 < 2 ^ 64 ∧ 2 < 2 ^ 64 ∧
      (List.replicate 452 48).length ≤ BUFFER_SIZE) ∧
    (decodeOffer (encodeOffer 54321 12345) = some (54321, 12345) ∧
     processRequest (encodeRequest 2500) = some 2500 ∧
     decodePayload (encodePayload 3 2 (List.replicate 452 48)) =
       some (3, 2, List.replicate 452 48)) :=
  ⟨⟨by decide, by decide, by decide, by decide, by decide, by simp [BUFFER_SIZE]⟩,
   C1_codec_roundtrip 54321 12345 2500 3 2 (List.replicate 452 48)
     (by decide) (by decide) (by decide) (by decide) (by decide) (by simp [BUFFER_SIZE])⟩

/-! ## Server-side UDP segment generation (Server.handle_udp_connection) -/

/-- Segment count computed by Server.handle_udp_connection (Server.py line
159): (file_size + BUFFER_SIZE - 1) // BUFFER_SIZE. -/
def total_segments (file_size : Nat) : Nat := (file_size + BUFFER_SIZE - 1) / BUFFER_SIZE

/-- Data chunk carried by segment seq (Server.py line 164): the byte string
b'0' repeated min(BUFFER_SIZE, file_size - seq * BUFFER_SIZE) times (byte 48). -/
def segData (file_size seq : Nat) : List Nat :=
  List.replicate (min BUFFER_SIZE (file_size - seq * BUFFER_SIZE)) 48

/-- Full Payload datagram for segment seq (Server.py lines 163-164). -/
def udpSegment (file_size seq : Nat) : List Nat :=
  encodePayload (total_segments file_size) seq (segData file_size seq)

/-- The datagrams Server.handle_udp_connection sends for one request, in
iteration order seq = 0, ..., total_segments - 1 (Server.py lines 161-166). -/
def udpSegments (file_size : Nat) : List (List Nat) :=
  (List.range (total_segments file_size)).map (udpSegment file_size)

theorem encodePayload_drop21 (total seq : Nat) (data : List Nat) :
    (encodePayload total seq data).drop 21 = data := by
  have hd4 : (encodePayload total seq data).drop 4 =
      packBE 1 PAYLOAD_MESSAGE_TYPE ++ (packBE 8 total ++ (packBE 8 seq ++ data)) :=
    drop_packBE_append ..
  have hd5 : (encodePayload total seq data).drop 5 = packBE 8 total ++ (packBE 8 seq ++ data) := by
    rw [← List.drop_drop 1 4, hd4, drop_packBE_append]
  have hd13 : (encodePayload total seq data).drop 13 = packBE 8 seq ++ data := by
    rw [← List.drop_drop 8 5, hd5, drop_packBE_append]
  rw [← List.drop_drop 8 13, hd13, drop_packBE_append]

theorem sum_min_chunks (fs : Nat) :
    ((List.range ((fs + 1023) / 1024)).map (fun i => min 1024 (fs - i * 1024))).sum = fs := by
  induction fs using Nat.strong_induction_on with
  | _ fs ih =>
    by_cases h0 : fs = 0
    · subst h0
      rw [show (0 + 1023) / 1024 = 0 from by norm_num]
      simp
    · by_cases hle : fs ≤ 1024
      · rw [show (fs + 1023) / 1024 = 1 from by omega,
            show List.range 1 = [0] from rfl]
        simp only [List.map_cons, List.map_nil, List.sum_cons, List.sum_nil]
        omega
      · rw [show (fs + 1023) / 1024 = ((fs - 1024) + 1023) / 1024 + 1 from by omega,
            List.range_succ_eq_map]
        simp only [List.map_cons, List.sum_cons, List.map_map]
        have hfun : ((fun i => min 1024 (fs - i * 1024)) ∘ Nat.succ) =
            fun i => min 1024 ((fs - 1024) - i * 1024) := by
          funext i
          simp only [Function.comp]
          omega
        rw [hfun, ih (fs - 1024) (by omega)]
        omega

/-- C2: For every fileSize > 0, the server's UDP handler computes totalSegments
as the ceiling of fileSize / BUFFER_SIZE and emits segments indexed
0..totalSegments-1 whose data lengths are min(BUFFER_SIZE, fileSize -
index*BUFFER_SIZE); these lengths sum to exactly fileSize, and the last
segment's length is fileSize mod BUFFER_SIZE (or the full BUFFER_SIZE when
fileSize is divisible by it). -/
theorem C2_segment_generation (fs : Nat) (hfs : 0 < fs) :
    total_segments fs = fs / BUFFER_SIZE + (if fs % BUFFER_SIZE = 0 then 0 else 1) ∧
    (udpSegments fs).length = total_segments fs ∧
    (∀ seq, (udpSegment fs seq).drop 21 = List.replicate (min BUFFER_SIZE (fs - seq * BUFFER_SIZE)) 48) ∧
    ((udpSegments fs).map (fun d => (d.drop 21).length)).sum = fs ∧
    ((udpSegment fs (total_segments fs - 1)).drop 21).length =
      (if fs % BUFFER_SIZE = 0 then BUFFER_SIZE else fs % BUFFER_SIZE) := by
  have hdrop : ∀ seq, (udpSegment fs seq).drop 21 =
      List.replicate (min BUFFER_SIZE (fs - seq * BUFFER_SIZE)) 48 := fun seq => by
    rw [udpSegment, encodePayload_drop21, segData]
  refine ⟨?_, ?_, hdrop, ?_, ?_⟩
  · simp only [total_segments, BUFFER_SIZE]
    by_cases h : fs % 1024 = 0 <;> simp [h] <;> omega
  · simp [udpSegments]
  · rw [udpSegments, List.map_map]
    have hfun : ((fun d => (List.drop 21 d).length) ∘ udpSegment fs) =
        fun i => min 1024 (fs - i * 1024) := by
      funext i
      simp only [Function.comp, hdrop, List.length_replicate, BUFFER_SIZE]
    rw [hfun, show total_segments fs = (fs + 1023) / 1024 from by
      simp only [total_segments, BUFFER_SIZE]; omega]
    exact sum_min_chunks fs
  · rw [hdrop, List.length_replicate]
    simp only [total_segments, BUFFER_SIZE]
    by_cases h : fs % 1024 = 0 <;> simp [h] <;> omega

/-- Witness for C2 at fileSize 2500: three segments with data lengths
1024, 1024, 452. -/
theorem C2_segment_generation_witness :
    0 < 2500 ∧
    (total_segments 2500 = 2500 / BUFFER_SIZE + (if 2500 % BUFFER_SIZE = 0 then 0 else 1) ∧
     (udpSegments 2500).length = total_segments 2500 ∧
     (∀ seq, (udpSegment 2500 seq).drop 21 =
       List.replicate (min BUFFER_SIZE (2500 - seq * BUFFER_SIZE)) 48) ∧
     ((udpSegments 2500).map (fun d => (d.drop 21).length)).sum = 2500 ∧
     ((udpSegment 2500 (total_segments 2500 - 1)).drop 21).length =
       (if 2500 % BUFFER_SIZE = 0 then BUFFER_SIZE else 2500 % BUFFER_SIZE)) :=
  ⟨by decide, C2_segment_generation 2500 (by decide)⟩

/-! ## Client UDP receive loop (Client.handle_udp_connection) -/

/-- One event seen by the client UDP receive loop (ClientFinal.py lines
192-198): either select reports the socket ready and recvfrom returns a
datagram, or the 1-second select timeout elapses with nothing received. -/
inductive UdpEvent where
  | timeout : UdpEvent
  | datagram : List Nat → UdpEvent
deriving DecidableEq

/-- One pass of the client UDP loop body over a received datagram
(ClientFinal.py lines 198-210): datagrams shorter than the 21-byte header or
with a bad cookie or type byte are skipped; otherwise expected_segments is
recorded on its first occurrence and the data-portion length is added to
received_data. State is (received_data, expected_segments). -/
def udpStep (st : Nat × Option Nat) (d : List Nat) : Nat × Option Nat :=
  match decodePayload d with
  | none => st
  | some (total, _, payload) => (st.1 + payload.length, some (st.2.getD total))

/-- The client UDP receive loop (ClientFinal.py lines 192-210): a while-True
loop that processes incoming datagrams and exits only when the 1-second select
timeout fires with nothing ready (the break on empty ready_sockets); the loop
body never inspects received_data against the requested file size. -/
def udpRecvLoop : List UdpEvent → Nat × Option Nat → Nat × Option Nat
  | [], st => st
  | UdpEvent.timeout :: _, st => st
  | UdpEvent.datagram d :: evs, st => udpRecvLoop evs (udpStep st d)

/-- Whether an event is a received datagram (as opposed to the idle timeout). -/
def isDatagramEv : UdpEvent → Bool
  | UdpEvent.timeout => false
  | UdpEvent.datagram _ => true

/-- Data-portion length credited to received_data for one event. -/
def payloadLen : UdpEvent → Nat
  | UdpEvent.timeout => 0
  | UdpEvent.datagram d =>
    match decodePayload d with
    | none => 0
    | some (_, _, payload) => payload.length

theorem udpStep_fst (st : Nat × Option Nat) (d : List Nat) :
    (udpStep st d).1 = st.1 + payloadLen (UdpEvent.datagram d) := by
  cases hd : decodePayload d with
  | none => simp [udpStep, payloadLen, hd]
  | some x =>
    obtain ⟨total, seq, payload⟩ := x
    simp [udpStep, payloadLen, hd]

theorem udpRecvLoop_received (evs : List UdpEvent) : ∀ st : Nat × Option Nat,
    (udpRecvLoop evs st).1 = st.1 + ((evs.takeWhile isDatagramEv).map payloadLen).sum := by
  induction evs with
  | nil => intro st; simp [udpRecvLoop]
  | cons ev tl ih =>
    intro st
    cases ev with
    | timeout => simp [udpRecvLoop, List.takeWhile_cons, isDatagramEv]
    | datagram d =>
      simp only [udpRecvLoop, List.takeWhile_cons, isDatagramEv, if_pos, List.map_cons,
        List.sum_cons]
      rw [ih (udpStep st d), udpStep_fst]
      omega

/-! ## Client TCP receive loop (Client.handle_tcp_connection) -/

/-- The client TCP receive loop (ClientFinal.py lines 147-151): while
received_data < file_size, recv a chunk; an empty chunk means the peer closed
the connection and breaks the loop; otherwise its length is added. The chunk
list is the complete sequence of recv results the stream can deliver; once it
is exhausted the peer has closed, so recv yields nothing further. -/
def tcpRecvLoop (file_size : Nat) : List (List Nat) → Nat → Nat
  | [], received => received
  | chunk :: rest, received =>
    if received < file_size then
      if chunk = [] then received else tcpRecvLoop file_size rest (received + chunk.length)
    else received

theorem tcpRecvLoop_le (fs : Nat) (chunks : List (List Nat)) : ∀ r : Nat,
    r + (chunks.map List.length).sum ≤ fs → tcpRecvLoop fs chunks r ≤ fs := by
  induction chunks with
  | nil =>
    intro r h
    simp only [tcpRecvLoop]
    simp at h
    omega
  | cons c tl ih =>
    intro r h
    simp only [List.map_cons, List.sum_cons] at h
    simp only [tcpRecvLoop]
    by_cases hlt : r < fs
    · rw [if_pos hlt]
      by_cases hc : c = ([] : List Nat)
      · rw [if_pos hc]; omega
      · rw [if_neg hc]
        exact ih (r + c.length) (by omega)
    · rw [if_neg hlt]; omega

theorem tcpRecvLoop_ge (fs : Nat) (chunks : List (List Nat)) : ∀ r : Nat,
    (∀ c ∈ chunks, c ≠ []) → fs ≤ r + (chunks.map List.length).sum →
    fs ≤ tcpRecvLoop fs chunks r := by
  induction chunks with
  | nil =>
    intro r _ h
    simp only [tcpRecvLoop]
    simp at h
    omega
  | cons c tl ih =>
    intro r hne h
    simp only [List.map_cons, List.sum_cons] at h
    simp only [tcpRecvLoop]
    by_cases hlt : r < fs
    · rw [if_pos hlt, if_neg (hne c (List.mem_cons_self c tl))]
      exact ih (r + c.length) (fun x hx => hne x (List.mem_cons_of_mem c hx)) (by omega)
    · rw [if_neg hlt]; omega

/-- C5: The TCP client session accumulates received bytes in chunks until
either bytesReceived equals requestedFileSize or the peer closes the connection
(a read returning zero bytes / the stream being exhausted), whichever comes
first; at every point of the loop and at exit, given the peer stream carries at
most requestedFileSize bytes, bytesReceived stays at most requestedFileSize,
with a shortfall possible only on peer disconnect. -/
theorem C5_tcp_session (fs : Nat) (chunks : List (List Nat)) (r : Nat) :
    (r + (chunks.map List.length).sum ≤ fs → tcpRecvLoop fs chunks r ≤ fs) ∧
    ((∀ c ∈ chunks, c ≠ []) → fs ≤ r + (chunks.map List.length).sum →
      fs ≤ tcpRecvLoop fs chunks r) ∧
    (fs ≤ r → tcpRecvLoop fs chunks r = r) ∧
    (r < fs → tcpRecvLoop fs (([] : List Nat) :: chunks) r = r) := by
  refine ⟨tcpRecvLoop_le fs chunks r, tcpRecvLoop_ge fs chunks r, ?_, ?_⟩
  · intro h
    cases chunks with
    | nil => rfl
    | cons c tl => simp only [tcpRecvLoop]; rw [if_neg (by omega)]
  · intro h
    simp only [tcpRecvLoop]
    rw [if_pos h]
    simp

/-- Witness for C5: file size 5, stream of chunks of lengths 3 and 2. -/
theorem C5_tcp_session_witness :
    (0 + (([[48, 48, 48], [48, 48]].map List.length).sum : Nat) ≤ 5 →
      tcpRecvLoop 5 [[48, 48, 48], [48, 48]] 0 ≤ 5) ∧
    ((∀ c ∈ [[48, 48, 48], [48, 48]], c ≠ ([] : List Nat)) →
      5 ≤ 0 + (([[48, 48, 48], [48, 48]].map List.length).sum : Nat) →
      5 ≤ tcpRecvLoop 5 [[48, 48, 48], [48, 48]] 0) ∧
    (5 ≤ 0 → tcpRecvLoop 5 [[48, 48, 48], [48, 48]] 0 = 0) ∧
    (0 < 5 → tcpRecvLoop 5 (([] : List Nat) :: [[48, 48, 48], [48, 48]]) 0 = 0) :=
  C5_tcp_session 5 [[48, 48, 48], [48, 48]] 0

/-- C4 counterexample: with requested file size 5, a valid Payload datagram
carrying 5 data bytes already brings bytesReceived to the requested size, yet
when a second identical datagram arrives before the idle timeout the loop
processes it too and ends with bytesReceived 10: the receive loop has no
early exit when bytesReceived reaches the requested file size. -/
theorem C4_counterexample :
    (udpStep (0, none) (encodePayload 1 0 (List.replicate 5 48))).1 = 5 ∧
    (udpRecvLoop
        [UdpEvent.datagram (encodePayload 1 0 (List.replicate 5 48)),
         UdpEvent.datagram (encodePayload 1 0 (List.replicate 5 48)),
         UdpEvent.timeout] (0, none)).1 = 10 ∧
    ¬ (udpRecvLoop
        [UdpEvent.datagram (encodePayload 1 0 (List.replicate 5 48)),
         UdpEvent.datagram (encodePayload 1 0 (List.replicate 5 48)),
         UdpEvent.timeout] (0, none)).1 ≤ 5 := by
  refine ⟨by decide, by decide, by decide⟩

/-- C4 (amended): The UDP client session's receive loop adds the data-portion
length of each valid Payload datagram to bytesReceived and records
totalSegments from the first valid Payload seen; it terminates only when the
1-second idle timeout fires (or the peer never sends again), processing every
datagram that arrives before the first timeout regardless of how many bytes
have been received — there is no early exit on reaching the requested file
size. -/
theorem C4_udp_loop (st : Nat × Option Nat) (d : List Nat) (evs : List UdpEvent) :
    (udpRecvLoop evs st).1 = st.1 + ((evs.takeWhile isDatagramEv).map payloadLen).sum ∧
    udpRecvLoop (UdpEvent.timeout :: evs) st = st ∧
    udpRecvLoop (UdpEvent.datagram d :: evs) st = udpRecvLoop evs (udpStep st d) ∧
    (∀ total seq payload, decodePayload d = some (total, seq, payload) →
      udpStep st d = (st.1 + payload.length, some (st.2.getD total))) ∧
    (decodePayload d = none → udpStep st d = st) := by
  refine ⟨udpRecvLoop_received evs st, rfl, rfl, ?_, ?_⟩
  · intro total seq payload h
    simp [udpStep, h]
  · intro h
    simp [udpStep, h]

/-- Witness for C4's amended theorem at a concrete valid datagram. -/
theorem C4_udp_loop_witness :
    decodePayload (encodePayload 1 0 (List.replicate 5 48)) =
      some (1, 0, List.replicate 5 48) ∧
    udpStep (0, none) (encodePayload 1 0 (List.replicate 5 48)) =
      (0 + (List.replicate 5 48).length, some ((none : Option Nat).getD 1)) ∧
    (udpRecvLoop [UdpEvent.datagram (encodePayload 1 0 (List.replicate 5 48))] (0, none)).1 =
      0 + ((([UdpEvent.datagram (encodePayload 1 0 (List.replicate 5 48))].takeWhile
        isDatagramEv).map payloadLen).sum) :=
  ⟨by decide,
   (C4_udp_loop (0, none) (encodePayload 1 0 (List.replicate 5 48)) []).2.2.2.1
     1 0 (List.replicate 5 48) (by decide),
   (C4_udp_loop (0, none) (encodePayload 1 0 (List.replicate 5 48))
     [UdpEvent.datagram (encodePayload 1 0 (List.replicate 5 48))]).1⟩

/-- C6: Any datagram that is shorter than the decoder's fixed header size, or
whose magic cookie is not 0xABCDDCBA, or whose type byte is not the one the
decoder expects, is dropped without a partial parse (the decoder yields nothing
and no field values), and the receive loop continues with subsequent
datagrams; such a datagram is never fatal. -/
theorem C6_invalid_dropped (data : List Nat) (st : Nat × Option Nat) (evs : List UdpEvent) :
    (data.length < 13 ∨ beVal (data.take 4) ≠ MAGIC_COOKIE ∨
        beVal ((data.drop 4).take 1) ≠ REQUEST_MESSAGE_TYPE →
      processRequest data = none) ∧
    (data.length < 9 ∨ beVal (data.take 4) ≠ MAGIC_COOKIE ∨
        beVal ((data.drop 4).take 1) ≠ OFFER_MESSAGE_TYPE →
      decodeOffer data = none) ∧
    (data.length < 21 ∨ beVal (data.take 4) ≠ MAGIC_COOKIE ∨
        beVal ((data.drop 4).take 1) ≠ PAYLOAD_MESSAGE_TYPE →
      decodePayload data = none ∧ udpStep st data = st ∧
      udpRecvLoop (UdpEvent.datagram data :: evs) st = udpRecvLoop evs st) := by
  refine ⟨?_, ?_, ?_⟩
  · intro h
    have hv : validate_request data = false := by
      rw [validate_request]
      by_cases hl : data.length < 13
      · rw [if_pos hl]
      · rw [if_neg hl]
        rcases h with h | h | h
        · omega
        · simp [h]
        · simp [h]
    simp [processRequest, hv]
  · intro h
    rw [decodeOffer]
    by_cases hl : data.length = 9
    · rw [if_pos hl, if_neg]
      rcases h with h | h | h
      · omega
      · exact fun hc => h hc.1
      · exact fun hc => h hc.2
    · rw [if_neg hl]
  · intro h
    have hdec : decodePayload data = none := by
      rw [decodePayload]
      by_cases hl : data.length < 21
      · rw [if_pos hl]
      · rw [if_neg hl, if_neg]
        rcases h with h | h | h
        · omega
        · exact fun hc => h hc.1
        · exact fun hc => h hc.2
    refine ⟨hdec, ?_, ?_⟩
    · simp [udpStep, hdec]
    · show udpRecvLoop evs (udpStep st data) = udpRecvLoop evs st
      rw [show udpStep st data = st from by simp [udpStep, hdec]]

/-- Witness for C6 at a concrete three-byte garbage datagram. -/
theorem C6_invalid_dropped_witness :
    ([1, 2, 3] : List Nat).length < 13 ∧
    (processRequest [1, 2, 3] = none ∧
     decodeOffer [1, 2, 3] = none ∧
     decodePayload [1, 2, 3] = none ∧
     udpStep (0, none) [1, 2, 3] = (0, none) ∧
     udpRecvLoop [UdpEvent.datagram [1, 2, 3]] (0, none) = udpRecvLoop [] (0, none)) := by
  have h := C6_invalid_dropped [1, 2, 3] (0, none) []
  exact ⟨by decide, h.1 (Or.inl (by decide)), h.2.1 (Or.inl (by decide)),
    (h.2.2 (Or.inl (by decide))).1, (h.2.2 (Or.inl (by decide))).2.1,
    (h.2.2 (Or.inl (by decide))).2.2⟩

/-- C10: The server spawns a UDP transfer handler exactly for Request
datagrams of length exactly 13 whose first 5 bytes carry the valid magic
cookie and Request type; a longer datagram with a valid header passes
validate_request (which only requires length at least 13) but the fixed
8-byte file-size unpack of data[5:] raises, so the request is dropped without
spawning a handler. -/
theorem C10_request_exact_length (data : List Nat) :
    ((processRequest data).isSome ↔
      data.length = 13 ∧ beVal (data.take 4) = MAGIC_COOKIE ∧
        beVal ((data.drop 4).take 1) = REQUEST_MESSAGE_TYPE) ∧
    (13 < data.length → beVal (data.take 4) = MAGIC_COOKIE →
      beVal ((data.drop 4).take 1) = REQUEST_MESSAGE_TYPE →
      validate_request data = true ∧ processRequest data = none) := by
  have hdlen : (data.drop 5).length = data.length - 5 := List.length_drop 5 data
  constructor
  · constructor
    · intro h
      rw [processRequest] at h
      by_cases hv : validate_request data = true
      · rw [if_pos hv] at h
        rw [validate_request] at hv
        by_cases hl : data.length < 13
        · rw [if_pos hl] at hv; exact absurd hv (by simp)
        · rw [if_neg hl] at hv
          simp only [Bool.and_eq_true, beq_iff_eq] at hv
          by_cases h8 : (data.drop 5).length = 8
          · exact ⟨by omega, hv.1, hv.2⟩
          · rw [if_neg h8] at h; exact absurd h (by simp)
      · rw [if_neg hv] at h; exact absurd h (by simp)
    · intro ⟨hl, hc, ht⟩
      have hv : validate_request data = true := by
        rw [validate_request, if_neg (by omega)]
        simp [hc, ht]
      rw [processRequest, if_pos hv, if_pos (by omega)]
      rfl
  · intro hl hc ht
    have hv : validate_request data = true := by
      rw [validate_request, if_neg (by omega)]
      simp [hc, ht]
    refine ⟨hv, ?_⟩
    rw [processRequest, if_pos hv, if_neg (by omega)]

/-- Witness for C10 at the 14-byte datagram formed by a valid Request plus one
trailing byte: validate_request accepts it but no handler is spawned. -/
theorem C10_request_exact_length_witness :
    (13 < (encodeRequest 2500 ++ [0]).length ∧
     beVal ((encodeRequest 2500 ++ [0]).take 4) = MAGIC_COOKIE ∧
     beVal (((encodeRequest 2500 ++ [0]).drop 4).take 1) = REQUEST_MESSAGE_TYPE) ∧
    (validate_request (encodeRequest 2500 ++ [0]) = true ∧
     processRequest (encodeRequest 2500 ++ [0]) = none) :=
  ⟨⟨by decide, by decide, by decide⟩,
   (C10_request_exact_length (encodeRequest 2500 ++ [0])).2
     (by decide) (by decide) (by decide)⟩

/-! ## Server start-up dispatch (Server.start) -/

/-- The long-running services of the server process: the send_offers broadcast
loop, the TCP accept loop of start, and the listen_for_udp_requests loop. -/
inductive ServerService where
  | broadcastLoop : ServerService
  | tcpAcceptLoop : ServerService
  | udpRequestLoop : ServerService
deriving DecidableEq

/-- Services launched by Server.start (Server.py lines 42-70): line 49 starts
a daemon thread running send_offers, and lines 52-67 run the TCP accept loop
(spawning a handle_tcp_connection task per accepted connection) in the calling
thread. listen_for_udp_requests (Server.py lines 93-110) has no caller
anywhere in the repository, so no UDP-request service is ever started. -/
def startServices : List ServerService :=
  [ServerService.broadcastLoop, ServerService.tcpAcceptLoop]

/-- C3: evaluation of the code at the failing point. The claim says starting
the server launches the UDP-request service alongside the broadcast loop and
the TCP accept loop; Server.start launches only the broadcast loop and the
TCP accept loop, so no UDP Request ever reaches a handler. -/
theorem C3_start_services :
    ServerService.broadcastLoop ∈ startServices ∧
    ServerService.tcpAcceptLoop ∈ startServices ∧
    ServerService.udpRequestLoop ∉ startServices := by
  refine ⟨by decide, by decide, by decide⟩

/-! ## Server TCP handler (Server.handle_tcp_connection) -/

/-- Whether a byte is ASCII whitespace for the purposes of str.strip
(space, tab, newline, vertical tab, form feed, carriage return). -/
def isSpaceByte (b : Nat) : Bool :=
  b == 32 || b == 9 || b == 10 || b == 11 || b == 12 || b == 13

/-- Effect of str.strip on an ASCII byte string: leading and trailing
whitespace removed (Server.py line 134). -/
def stripBytes (s : List Nat) : List Nat :=
  ((s.dropWhile isSpaceByte).reverse.dropWhile isSpaceByte).reverse

/-- Whether a byte is an ASCII decimal digit. -/
def isDigitByte (b : Nat) : Bool := 48 ≤ b && b ≤ 57

/-- Effect of str.isdigit on an ASCII byte string: nonempty and all digits
(Server.py line 135). -/
def isDigits (s : List Nat) : Bool := !s.isEmpty && s.all isDigitByte

/-- Effect of int() on an ASCII digit string: its decimal value, most
significant digit first (Server.py line 137). -/
def asciiToNat (s : List Nat) : Nat := s.foldl (fun a d => a * 10 + (d - 48)) 0

/-- Server.handle_tcp_connection (Server.py lines 121-145): one single recv of
at most BUFFER_SIZE bytes — the first chunk the TCP stream delivers — is
utf-8-decoded, stripped, and validated with isdigit; on success the handler
sends exactly file_size bytes of b'0' filler and closes; on any failure
(including a non-digit request, which raises ValueError) it logs the error,
sends nothing, and closes. Result: some n when n payload bytes are sent, none
when the connection is closed with zero payload bytes sent. -/
def handle_tcp_connection (stream : List (List Nat)) : Option Nat :=
  if isDigits (stripBytes ((stream.headD []).take BUFFER_SIZE)) then
    some (asciiToNat (stripBytes ((stream.headD []).take BUFFER_SIZE)))
  else none

/-- Modelled from the spec for comparison (C7 refinement target): the claim's
handler keeps reading until the newline-terminated size line is fully
received, so it parses the full line up to the newline across chunk
boundaries, then strips and validates it the same way. -/
def handleTcpClaim (stream : List (List Nat)) : Option Nat :=
  if isDigits (stripBytes ((stream.foldr (· ++ ·) []).takeWhile (fun b => b != 10))) then
    some (asciiToNat (stripBytes ((stream.foldr (· ++ ·) []).takeWhile (fun b => b != 10))))
  else none

/-- C7 counterexample: the size line of 25 followed by the newline, delivered
in two TCP chunks (first byte 50, then bytes 53 and 10). The claim's
read-until-newline handler parses 25 and would send 25 bytes; the code's
single-recv handler parses only the first chunk and sends 2 bytes. -/
theorem C7_counterexample :
    handle_tcp_connection [[50], [53, 10]] = some 2 ∧
    handleTcpClaim [[50], [53, 10]] = some 25 ∧
    handle_tcp_connection [[50], [53, 10]] ≠ handleTcpClaim [[50], [53, 10]] := by
  refine ⟨by decide, by decide, by decide⟩

/-- Little-endian base-10 digits of n, computed with structural fuel; agrees
with Nat.digits 10 when the fuel is at least n. -/
def digitsRevAux : Nat → Nat → List Nat
  | 0, _ => []
  | _ + 1, 0 => []
  | fuel + 1, n + 1 => ((n + 1) % 10) :: digitsRevAux fuel ((n + 1) / 10)

/-- Decimal ASCII representation of n, as Python str() produces for a
non-negative integer (most significant digit first, at least one digit). -/
def natToAscii (n : Nat) : List Nat :=
  if n = 0 then [48] else (digitsRevAux n n).reverse.map (fun d => d + 48)

theorem digitsRevAux_eq_digits (fuel : Nat) : ∀ n : Nat, n ≤ fuel →
    digitsRevAux fuel n = Nat.digits 10 n := by
  induction fuel with
  | zero =>
    intro n hn
    rw [Nat.le_zero.mp hn]
    simp [digitsRevAux]
  | succ fuel ih =>
    intro n hn
    cases n with
    | zero => simp [digitsRevAux]
    | succ m =>
      rw [digitsRevAux, ih ((m + 1) / 10) (by omega),
        Nat.digits_def' (by norm_num) (Nat.succ_pos m)]

theorem foldl_reverse_ofDigits (D : List Nat) : ∀ acc : Nat,
    D.reverse.foldl (fun a d => a * 10 + d) acc = acc * 10 ^ D.length + Nat.ofDigits 10 D := by
  induction D with
  | nil => intro acc; simp [Nat.ofDigits_nil]
  | cons d tl ih =>
    intro acc
    rw [List.reverse_cons, List.foldl_append, ih acc]
    simp only [List.foldl_cons, List.foldl_nil, Nat.ofDigits_cons, List.length_cons]
    ring

theorem asciiToNat_natToAscii (n : Nat) : asciiToNat (natToAscii n) = n := by
  by_cases h0 : n = 0
  · subst h0; decide
  · rw [natToAscii, if_neg h0, asciiToNat, List.foldl_map,
        digitsRevAux_eq_digits n n (le_refl n)]
    have hfun : (fun (a d : Nat) => a * 10 + (d + 48 - 48)) = fun a d => a * 10 + d := by
      funext a d
      omega
    rw [hfun, foldl_reverse_ofDigits (Nat.digits 10 n) 0]
    simp [Nat.ofDigits_digits]

theorem natToAscii_digits (n : Nat) : ∀ b ∈ natToAscii n, isDigitByte b = true := by
  intro b hb
  rw [natToAscii] at hb
  by_cases h0 : n = 0
  · rw [if_pos h0] at hb
    simp only [List.mem_singleton] at hb
    subst hb
    decide
  · rw [if_neg h0, digitsRevAux_eq_digits n n (le_refl n)] at hb
    simp only [List.mem_map, List.mem_reverse] at hb
    obtain ⟨d, hd, rfl⟩ := hb
    have hlt : d < 10 := Nat.digits_lt_base (by norm_num) hd
    simp only [isDigitByte, Bool.and_eq_true, decide_eq_true_eq]
    omega

theorem natToAscii_ne_nil (n : Nat) : natToAscii n ≠ [] := by
  rw [natToAscii]
  by_cases h0 : n = 0
  · rw [if_pos h0]; simp
  · rw [if_neg h0, digitsRevAux_eq_digits n n (le_refl n)]
    simp [Nat.digits_ne_nil_iff_ne_zero.mpr h0]

theorem dropWhile_eq_self_of_forall (p : Nat → Bool) (l : List Nat)
    (h : ∀ b ∈ l, p b = false) : l.dropWhile p = l := by
  cases l with
  | nil => rfl
  | cons a tl =>
    rw [List.dropWhile_cons, h a (List.mem_cons_self a tl)]
    simp

theorem natToAscii_not_space (n : Nat) : ∀ b ∈ natToAscii n, isSpaceByte b = false := by
  intro b hb
  have hd := natToAscii_digits n b hb
  simp only [isDigitByte, Bool.and_eq_true, decide_eq_true_eq] at hd
  simp only [isSpaceByte, Bool.or_eq_false_iff, beq_eq_false_iff_ne, ne_eq]
  omega

theorem stripBytes_ascii_newline (n : Nat) :
    stripBytes (natToAscii n ++ [10]) = natToAscii n := by
  rw [stripBytes]
  have h1 : (natToAscii n ++ [10]).dropWhile isSpaceByte = natToAscii n ++ [10] := by
    obtain ⟨a, tl, hcons⟩ := List.exists_cons_of_ne_nil (natToAscii_ne_nil n)
    rw [hcons, List.cons_append, List.dropWhile_cons,
        natToAscii_not_space n a (hcons ▸ List.mem_cons_self a tl)]
    simp
  have hrev : (natToAscii n ++ [10]).reverse = 10 :: (natToAscii n).reverse := by simp
  rw [h1, hrev, List.dropWhile_cons, show isSpaceByte 10 = true from rfl]
  simp only [if_true]
  rw [dropWhile_eq_self_of_forall isSpaceByte (natToAscii n).reverse
        (fun b hb => natToAscii_not_space n b (List.mem_reverse.mp hb)),
      List.reverse_reverse]

theorem isDigits_natToAscii (n : Nat) : isDigits (natToAscii n) = true := by
  obtain ⟨a, tl, hcons⟩ := List.exists_cons_of_ne_nil (natToAscii_ne_nil n)
  simp only [isDigits, Bool.and_eq_true, Bool.not_eq_true', List.all_eq_true]
  constructor
  · rw [hcons]; rfl
  · exact natToAscii_digits n

/-- C7 (amended): The TCP server handler performs a single read of up to
BUFFER_SIZE bytes rather than reading until the newline; over what that one
read returns, if the stripped content is a nonempty decimal-digit string
parsing to n, the handler sends exactly n bytes of filler payload and closes;
if the validation fails, the handler logs an error and closes having sent
zero bytes. In particular a well-behaved client whose whole newline-terminated
announcement of n arrives in the first read receives exactly n bytes. -/
theorem C7_tcp_handler (n : Nat) (chunk : List Nat) (rest : List (List Nat))
    (hn : (natToAscii n).length < BUFFER_SIZE) :
    handle_tcp_connection ((natToAscii n ++ [10]) :: rest) = some n ∧
    (isDigits (stripBytes (chunk.take BUFFER_SIZE)) = false →
      handle_tcp_connection (chunk :: rest) = none) := by
  constructor
  · have hhead : (((natToAscii n ++ [10]) :: rest).headD []).take BUFFER_SIZE =
        natToAscii n ++ [10] := by
      apply List.take_of_length_le
      simp only [List.headD_cons, List.length_append, List.length_singleton]
      omega
    rw [handle_tcp_connection]
    simp only [List.headD_cons] at hhead ⊢
    rw [hhead, stripBytes_ascii_newline, if_pos (isDigits_natToAscii n),
        asciiToNat_natToAscii]
  · intro h
    rw [handle_tcp_connection]
    simp only [List.headD_cons]
    rw [h]
    simp

/-- Witness for C7's amended theorem at n = 2500 and a non-digit chunk. -/
theorem C7_tcp_handler_witness :
    (natToAscii 2500).length < BUFFER_SIZE ∧
    isDigits (stripBytes (([65] : List Nat).take BUFFER_SIZE)) = false ∧
    handle_tcp_connection ((natToAscii 2500 ++ [10]) :: []) = some 2500 ∧
    handle_tcp_connection ([65] :: []) = none :=
  ⟨by decide, by decide,
   (C7_tcp_handler 2500 [65] [] (by decide)).1,
   (C7_tcp_handler 2500 [65] [] (by decide)).2 (by decide)⟩

/-! ## Client discovery listener (Client.listen_for_offers) -/

/-- Events affecting the discovery listener: the process-wide STOP_EVENT being
set (from outside the listener), or a datagram arriving on the discovery
socket. -/
inductive ListenEvent where
  | stopRaised : ListenEvent
  | datagram : List Nat → ListenEvent
deriving DecidableEq

/-- Outcome of the discovery wait: a valid Offer returned as (udp_port,
tcp_port), the no-offer exception raised after the while-condition saw
STOP_EVENT set, or the listener still blocked inside select awaiting a
datagram that never arrives. -/
inductive ListenOutcome where
  | returned : Nat × Nat → ListenOutcome
  | raisedNoOffer : ListenOutcome
  | blocked : ListenOutcome
deriving DecidableEq

/-- Client.listen_for_offers (ClientFinal.py lines 108-123) inside the
receive phase, over a finite event trace. The STOP_EVENT flag is inspected
only by the while-condition at the top of the loop; select is invoked with
timeout None, so between loop tops the listener is blocked until a datagram
arrives: a stopRaised event merely sets the flag without unblocking select,
and a trace that ends while the listener is in select leaves it blocked. A
datagram that decodes as a valid Offer is returned at once; any other
datagram sends control back to the loop top, where a set flag makes the
while-condition fail and the no-offers exception is raised. -/
def listenAwait (stopFlag : Bool) : List ListenEvent → ListenOutcome
  | [] => ListenOutcome.blocked
  | ListenEvent.stopRaised :: evs => listenAwait true evs
  | ListenEvent.datagram d :: evs =>
    match decodeOffer d with
    | some ports => ListenOutcome.returned ports
    | none => if stopFlag then ListenOutcome.raisedNoOffer else listenAwait false evs

/-- Client.listen_for_offers entry (ClientFinal.py line 108): the
while-condition checks STOP_EVENT before the first select. -/
def listen_for_offers (stop0 : Bool) (evs : List ListenEvent) : ListenOutcome :=
  if stop0 then ListenOutcome.raisedNoOffer else listenAwait false evs

/-- C8 counterexample: the stop signal raised while the listener is blocked in
select, with no further datagram, leaves the listener blocked forever — it
does not unblock with the no-offer error within any bounded wait interval,
because the select call is made with no timeout. -/
theorem C8_counterexample :
    listen_for_offers false [ListenEvent.stopRaised] = ListenOutcome.blocked ∧
    listen_for_offers false [ListenEvent.stopRaised] ≠ ListenOutcome.raisedNoOffer := by
  refine ⟨by decide, by decide⟩

/-- C8 (amended): The listener observes the stop signal only at the top of its
while loop. When the flag is set at entry it raises the no-offer error; when
it is raised while the listener is blocked in the timeout-less select, the
listener stays blocked until another datagram arrives — only upon a non-Offer
datagram does it reach the loop top and raise the no-offer error, while a
valid Offer is still returned. -/
theorem C8_listener (evs : List ListenEvent) (d : List Nat) :
    listen_for_offers true evs = ListenOutcome.raisedNoOffer ∧
    listenAwait true [] = ListenOutcome.blocked ∧
    listenAwait true (ListenEvent.stopRaised :: evs) = listenAwait true evs ∧
    (decodeOffer d = none →
      listenAwait true (ListenEvent.datagram d :: evs) = ListenOutcome.raisedNoOffer) ∧
    (∀ ports, decodeOffer d = some ports →
      listenAwait true (ListenEvent.datagram d :: evs) = ListenOutcome.returned ports) ∧
    listen_for_offers false (ListenEvent.stopRaised :: evs) = listenAwait true evs := by
  refine ⟨rfl, rfl, rfl, ?_, ?_, rfl⟩
  · intro h
    simp [listenAwait, h]
  · intro ports h
    simp [listenAwait, h]

/-- Witness for C8's amended theorem with a garbage datagram and a valid
Offer datagram. -/
theorem C8_listener_witness :
    decodeOffer [1, 2, 3] = none ∧
    decodeOffer (encodeOffer 54321 12345) = some (54321, 12345) ∧
    listen_for_offers true [] = ListenOutcome.raisedNoOffer ∧
    listenAwait true [ListenEvent.datagram [1, 2, 3]] = ListenOutcome.raisedNoOffer ∧
    listenAwait true [ListenEvent.datagram (encodeOffer 54321 12345)] =
      ListenOutcome.returned (54321, 12345) :=
  ⟨by decide, by decide, (C8_listener [] [1, 2, 3]).1,
   (C8_listener [] [1, 2, 3]).2.2.2.1 (by decide),
   (C8_listener [] (encodeOffer 54321 12345)).2.2.2.2.1 (54321, 12345) (by decide)⟩

/-! ## Final report arithmetic (Client.handle_tcp_connection /
Client.handle_udp_connection, finally blocks). Times are modelled as exact
rationals. -/

/-- TCP elapsed-time flooring (ClientFinal.py line 158):
total_time = max(end_time - start_time, 1e-6). -/
def tcp_total_time (t : ℚ) : ℚ := max t (1 / 1000000)

/-- TCP speed computation (ClientFinal.py line 160):
received_data * 8 / total_time if total_time > 0 else 0. -/
def tcp_speed (received : Nat) (t : ℚ) : ℚ :=
  if tcp_total_time t > 0 then (received : ℚ) * 8 / tcp_total_time t else 0

/-- UDP speed computation (ClientFinal.py line 221):
received_data * 8 / total_time if total_time > 0 else 0, with no flooring
applied to total_time. -/
def udp_speed (received : Nat) (total_time : ℚ) : ℚ :=
  if total_time > 0 then (received : ℚ) * 8 / total_time else 0

/-- UDP receipt percentage (ClientFinal.py line 219):
(received_data / file_size) * 100 if file_size else 0. -/
def udp_percentage (received file_size : Nat) : ℚ :=
  if file_size ≠ 0 then ((received : ℚ) / (file_size : ℚ)) * 100 else 0

/-- C9: The TCP session's reported elapsed time is floored at 1 microsecond
before computing speed, so the speed division's divisor is strictly positive
and the division-by-zero branch is unreachable (the guarded division always
takes the division branch, with divisor at least 1e-6); likewise the UDP
session's speed and receipt-percentage computations are guarded — speed 0 when
the elapsed time is not positive, percentage 0 when the requested file size is
0 — so final reporting never divides by zero. -/
theorem C9_report_guards (received fs : Nat) (t : ℚ) :
    0 < tcp_total_time t ∧
    (1 : ℚ) / 1000000 ≤ tcp_total_time t ∧
    tcp_speed received t = (received : ℚ) * 8 / tcp_total_time t ∧
    (t ≤ 0 → udp_speed received t = 0) ∧
    (0 < t → udp_speed received t = (received : ℚ) * 8 / t) ∧
    (fs = 0 → udp_percentage received fs = 0) := by
  have hpos : 0 < tcp_total_time t :=
    lt_of_lt_of_le (by norm_num) (le_max_right t (1 / 1000000))
  refine ⟨hpos, le_max_right t (1 / 1000000), ?_, ?_, ?_, ?_⟩
  · rw [tcp_speed, if_pos hpos]
  · intro h
    rw [udp_speed, if_neg (not_lt.mpr h)]
  · intro h
    rw [udp_speed, if_pos h]
  · intro h
    rw [udp_percentage, if_neg (by simp [h])]

/-- Witness for C9 at received 100, file size 0, elapsed time 0. -/
theorem C9_report_guards_witness :
    ((0 : ℚ) ≤ 0 ∧ (0 : Nat) = 0) ∧
    (0 < tcp_total_time 0 ∧
     tcp_speed 100 0 = (100 : ℚ) * 8 / tcp_total_time 0 ∧
     udp_speed 100 0 = 0 ∧
     udp_percentage 100 0 = 0) :=
  ⟨⟨le_refl 0, rfl⟩,
   (C9_report_guards 100 0 0).1, (C9_report_guards 100 0 0).2.2.1,
   (C9_report_guards 100 0 0).2.2.2.1 (le_refl 0),
   (C9_report_guards 100 0 0).2.2.2.2.2 rfl⟩
